import Mathlib

/-!
Verification of the lifecycle-rule enforcement tool for object-storage
buckets.  The development embeds the Python module
`ensure_abort_multipart.py` shallowly: Python values appearing in
lifecycle-rule records are modelled by the inductive type `Val`, rule
records by association lists with Python dictionary semantics, and
exception-raising code by `Except PyExc`.
-/

set_option maxHeartbeats 1000000

namespace S3Abort

/-- A Python value as it can occur inside a lifecycle rule record:
`None`, booleans, integers, strings, lists and dictionaries. -/
inductive Val where
  | null : Val
  | bool (b : Bool) : Val
  | int (n : Int) : Val
  | str (s : String) : Val
  | list (elems : List Val) : Val
  | dict (entries : List (String × Val)) : Val
deriving Repr

/-- A Python dictionary with string keys, as an insertion-ordered
association list (keys of a real Python dict are unique). -/
abbrev Dict := List (String × Val)

/-- The Python exceptions the module can raise. -/
inductive PyExc where
  | typeError (msg : String) : PyExc
  | valueError (msg : String) : PyExc
  | attributeError (msg : String) : PyExc
deriving Repr, DecidableEq

/-- `d.get(k)` returning `some` value when the key is present
(`k in d` is `(dGet? d k).isSome`). -/
def dGet? (d : Dict) (k : String) : Option Val :=
  (d.find? (fun kv => kv.1 == k)).map (fun kv => kv.2)

/-- `d.get(k)`: the value at `k`, or Python `None` when absent. -/
def dGet (d : Dict) (k : String) : Val :=
  (dGet? d k).getD Val.null

/-- `k in d` for a Python dict. -/
def dHas (d : Dict) (k : String) : Bool :=
  (dGet? d k).isSome

/-- Python truthiness (`bool(v)`) for the modelled values. -/
def pyTruthy : Val → Bool
  | .null => false
  | .bool b => b
  | .int n => !(n == 0)
  | .str s => !(s == "")
  | .list l => !l.isEmpty
  | .dict d => !d.isEmpty

/-- The characters Python `str.strip()` removes. -/
def pyIsSpace (c : Char) : Bool :=
  c == ' ' || c == '\t' || c == '\n' || c == '\r' || c == '\x0b' || c == '\x0c'

/-- Python `s.strip()`: drop whitespace from both ends. -/
def pyStrip (s : String) : String :=
  String.mk (((s.data.dropWhile pyIsSpace).reverse.dropWhile pyIsSpace).reverse)

/-- Python `s.startswith("#")`: the first character is `#`. -/
def startsWithHash (s : String) : Bool :=
  match s.data with
  | [] => false
  | c :: _ => c == '#'

/-- Python `int(v)`: the identity on integers, `0`/`1` on booleans,
string parsing on strings (raising `ValueError` when the string is not
a numeral), and `TypeError` on `None`, lists and dictionaries. -/
def pyInt : Val → Except PyExc Int
  | .int n => .ok n
  | .bool b => .ok (if b then 1 else 0)
  | .str s =>
    match (pyStrip s).toInt? with
    | some n => .ok n
    | none => .error (.valueError "invalid literal for int() with base 10")
  | .null => .error (.typeError "int() argument cannot be NoneType")
  | .list _ => .error (.typeError "int() argument cannot be a list")
  | .dict _ => .error (.typeError "int() argument cannot be a dict")

mutual

/-- Python `==` on the modelled values: `True == 1`, lists compare
pointwise, dictionaries compare as key-value maps regardless of
insertion order. -/
def pyEq : Val → Val → Bool
  | .null, .null => true
  | .bool a, .bool b => a == b
  | .bool a, .int b => (if a then (1 : Int) else 0) == b
  | .int a, .bool b => a == (if b then (1 : Int) else 0)
  | .int a, .int b => a == b
  | .str a, .str b => a == b
  | .list a, .list b => pyEqList a b
  | .dict a, .dict b => a.length == b.length && pyEqEntries a b
  | _, _ => false
termination_by v _ => sizeOf v

/-- Pointwise Python equality of two lists. -/
def pyEqList : List Val → List Val → Bool
  | [], [] => true
  | x :: xs, y :: ys => pyEq x y && pyEqList xs ys
  | _, _ => false
termination_by l _ => sizeOf l

/-- Every entry of the first dictionary is present in the second with a
Python-equal value. -/
def pyEqEntries : List (String × Val) → List (String × Val) → Bool
  | [], _ => true
  | (k, v) :: rest, d =>
    (match dGet? d k with
     | some w => pyEq v w
     | none => false) && pyEqEntries rest d
termination_by l _ => sizeOf l

end

/-- Lines 22-24 of the module: read
`a.get("DaysAfterInitiation")`, return `False` when it is `None`,
propagate the exception of `int(days)`, and otherwise report whether
the day count stays within `max_days`. -/
def abort_days_within (a : Dict) (max_days : Int) : Except PyExc Bool :=
  match dGet a "DaysAfterInitiation" with
  | .null => .ok false
  | days =>
    match pyInt days with
    | .error e => .error e
    | .ok k => .ok (!(decide (k > max_days)))

/-- Lines 25-31 of the module: the rule applies globally when its
`Prefix` key is present with the empty string, or its `Filter` is
`None` or absent or an empty dictionary, or its `Filter` is a
dictionary whose `And` entry is present and falsy. -/
def global_scope_check (rule : Dict) : Bool :=
  (match dGet? rule "Prefix" with
   | some p => pyEq p (.str "")
   | none => false) ||
  (match dGet rule "Filter" with
   | .null => true
   | .dict fd => fd.isEmpty || (dHas fd "And" && !pyTruthy (dGet fd "And"))
   | _ => false)

/-- `is_global_abort_rule(rule, max_days)`: detect an enabled,
globally-scoped abort-incomplete-multipart-upload rule whose day count
is at most `max_days`.  The `.get` call on the abort sub-record raises
`AttributeError` when that value is not a dictionary, and `int(days)`
raises on non-numeric day values, exactly as the Python code does. -/
def is_global_abort_rule (rule : Dict) (max_days : Int) : Except PyExc Bool :=
  if !pyEq (dGet rule "Status") (.str "Enabled") then .ok false
  else
    match dGet? rule "AbortIncompleteMultipartUpload" with
    | none => .ok false
    | some (.dict a) =>
      match abort_days_within a max_days with
      | .error e => .error e
      | .ok false => .ok false
      | .ok true => .ok (global_scope_check rule)
    | some _ => .error (.attributeError "object has no attribute get")

/-- The deterministic identifier `abort-multipart-after-<days>-days`
derived from the day count. -/
def rule_id (days : Int) : String :=
  "abort-multipart-after-" ++ toString days ++ "-days"

/-- The rule the tool writes: legacy style with an empty `Prefix` for
`v1`, filter style with an empty `Filter` mapping otherwise. -/
def new_rule (version : String) (days : Int) : Dict :=
  if version = "v1" then
    [("ID", .str (rule_id days)),
     ("Status", .str "Enabled"),
     ("Prefix", .str ""),
     ("AbortIncompleteMultipartUpload", .dict [("DaysAfterInitiation", .int days)])]
  else
    [("ID", .str (rule_id days)),
     ("Status", .str "Enabled"),
     ("Filter", .dict []),
     ("AbortIncompleteMultipartUpload", .dict [("DaysAfterInitiation", .int days)])]

/-- Auto-detection of the rule dialect: the first rule carrying a
non-`None` `Filter` selects `v2`, the first rule carrying a `Prefix`
key selects `v1`, and with no rules (or no deciding rule) the default
is `v2`. -/
def detect_version : List Dict → String
  | [] => "v2"
  | r :: rs =>
    if dHas r "Filter" && !(match dGet r "Filter" with | .null => true | _ => false) then "v2"
    else if dHas r "Prefix" then "v1"
    else detect_version rs

/-- The dialect actually used: auto-detected for `auto`, otherwise as
requested. -/
def final_version (rules : List Dict) (version : String) : String :=
  if version = "auto" then detect_version rules else version

/-- The accepted values of the `lifecycle_version` argument. -/
def valid_versions : List String := ["auto", "v1", "v2"]

/-- The first loop of `upsert_rule_with_version`: scan the rules with
the detector, propagating the first raised exception and stopping at
the first satisfying rule. -/
def scan_detect : List Dict → Int → Except PyExc Bool
  | [], _ => .ok false
  | r :: rs, days =>
    match is_global_abort_rule r days with
    | .error e => .error e
    | .ok true => .ok true
    | .ok false => scan_detect rs days

/-- `upsert_rule_with_version(rules, days, lifecycle_version)`: ensure
an abort-incomplete-multipart-upload rule exists, returning the updated
rule list and whether a change was made. -/
def upsert_rule_with_version (rules : List Dict) (days : Int)
    (lifecycle_version : String) : Except PyExc (List Dict × Bool) :=
  if lifecycle_version ∉ valid_versions then
    .error (.valueError "lifecycle_version must be one of: auto, v1, v2")
  else
    let newR := new_rule (final_version rules lifecycle_version) days
    let target := rule_id days
    match scan_detect rules days with
    | .error e => .error e
    | .ok true => .ok (rules, false)
    | .ok false =>
      match rules.findIdx? (fun r => pyEq (dGet r "ID") (.str target)) with
      | some i =>
        if pyEq (.dict (rules.getD i [])) (.dict newR) then .ok (rules, false)
        else .ok (rules.set i newR, true)
      | none => .ok (rules ++ [newR], true)

/-- The deprecated two-argument entry point `upsert_rule(rules, days)`:
its body immediately raises `TypeError`. -/
def upsert_rule (rules : List Dict) (days : Int) :
    Except PyExc (List Dict × Bool) :=
  .error (.typeError
    "upsert_rule without lifecycle_version is removed; call upsert_rule_with_version instead")

/-- `list(dict.fromkeys(l))`: insert every name into a dictionary in
order, skipping names already present, and read the keys back. -/
def pyDictFromKeys (l : List String) : List String :=
  l.foldl (fun acc x => if acc.contains x then acc else acc ++ [x]) []

/-- The names contributed by the inline `--buckets` argument: each
entry stripped, empty entries dropped (`argparse` passes `none` when
the flag is absent). -/
def inline_names (argBuckets : Option (List String)) : List String :=
  match argBuckets with
  | some bs => if bs.isEmpty then [] else (bs.map pyStrip).filter (fun b => !(b == ""))
  | none => []

/-- The names contributed by the bucket file: each line stripped, blank
lines and lines starting with `#` dropped. -/
def file_names (fileLines : Option (List String)) : List String :=
  match fileLines with
  | some ls => (ls.map pyStrip).filter (fun n => !(n == "") && !(startsWithHash n))
  | none => []

/-- `load_bucket_list(args)`: combine both sources and deduplicate
keeping first occurrences. -/
def load_bucket_list (argBuckets : Option (List String))
    (fileLines : Option (List String)) : List String :=
  pyDictFromKeys (inline_names argBuckets ++ file_names fileLines)

/-- The result of one blocking storage-API call: success, a
`botocore` `ClientError` carrying an error code, or any other
exception. -/
inductive ApiResult (α : Type) where
  | ok (a : α) : ApiResult α
  | clientError (code : Option String) : ApiResult α
  | exc (msg : String) : ApiResult α

/-- The storage provider seen by the orchestrator: bucket-location
lookup, lifecycle read and lifecycle write. -/
structure Provider where
  location : String → ApiResult Unit
  lifecycle : String → ApiResult (List Dict)
  putLifecycle : String → List Dict → ApiResult Unit

/-- Terminal state of one bucket's processing. -/
inductive Outcome where
  | ok : Outcome
  | would_change : Outcome
  | changed : Outcome
  | skipped (code : Option String) : Outcome
  | errored (msg : String) : Outcome

/-- The message attached to an exception. -/
def pyExcMsg : PyExc → String
  | .typeError m => m
  | .valueError m => m
  | .attributeError m => m

/-- The message of a `ClientError` reaching the per-bucket handler. -/
def clientErrMsg (code : Option String) : String :=
  "ClientError " ++ (code.getD "Unknown")

/-- One iteration of the per-bucket loop of `main`: existence check
(not-found and access-denied become `skipped`), lifecycle read (a
missing configuration becomes the empty rule list), merge, then either
report or write; any other exception is caught and recorded. -/
def process_bucket (p : Provider) (days : Int) (version : String)
    (dry_run : Bool) (bucket : String) : Outcome :=
  match p.location bucket with
  | .clientError code =>
    if code = some "NoSuchBucket" ∨ code = some "AccessDenied" then .skipped code
    else .errored (clientErrMsg code)
  | .exc m => .errored m
  | .ok _ =>
    match (match p.lifecycle bucket with
           | .ok rs => Except.ok rs
           | .clientError code =>
             if code = some "NoSuchLifecycleConfiguration" then Except.ok []
             else Except.error (clientErrMsg code)
           | .exc m => Except.error m : Except String (List Dict)) with
    | .error m => .errored m
    | .ok current_rules =>
      match upsert_rule_with_version current_rules days version with
      | .error e => .errored (pyExcMsg e)
      | .ok (proposed_rules, will_change) =>
        if !will_change then .ok
        else if dry_run then .would_change
        else
          match p.putLifecycle bucket proposed_rules with
          | .ok _ => .changed
          | .clientError code => .errored (clientErrMsg code)
          | .exc m => .errored m

/-- The run summary accumulated by `main`. -/
structure Summary where
  ok : List String
  would_change : List String
  changed : List String
  skipped : List (String × Option String)
  errors : List (String × String)

/-- The empty summary. -/
def emptySummary : Summary := Summary.mk [] [] [] [] []

/-- Record one bucket's outcome in the summary. -/
def record (s : Summary) (bucket : String) : Outcome → Summary
  | .ok => Summary.mk (s.ok ++ [bucket]) s.would_change s.changed s.skipped s.errors
  | .would_change => Summary.mk s.ok (s.would_change ++ [bucket]) s.changed s.skipped s.errors
  | .changed => Summary.mk s.ok s.would_change (s.changed ++ [bucket]) s.skipped s.errors
  | .skipped code => Summary.mk s.ok s.would_change s.changed (s.skipped ++ [(bucket, code)]) s.errors
  | .errored m => Summary.mk s.ok s.would_change s.changed s.skipped (s.errors ++ [(bucket, m)])

/-- Process every bucket in order, aggregating the summary. -/
def run_buckets (p : Provider) (days : Int) (version : String)
    (dry_run : Bool) (buckets : List String) : Summary :=
  buckets.foldl (fun s b => record s b (process_bucket p days version dry_run b)) emptySummary

/-- How a run of `main` ends: `sys.exit(1)` with an error message, or
normal completion with a printed summary. -/
inductive MainResult where
  | exitError (msg : String) : MainResult
  | completed (s : Summary) : MainResult

/-- `main()`: resolve the bucket list; with no buckets print an error
and exit with status 1 before creating the client, otherwise process
every bucket and print the summary. -/
def main_run (argBuckets : Option (List String)) (fileLines : Option (List String))
    (days : Int) (applyFlag : Bool) (version : String) (p : Provider) : MainResult :=
  let dry_run := !applyFlag
  let buckets := load_bucket_list argBuckets fileLines
  if buckets.isEmpty then .exitError "no target buckets were specified"
  else .completed (run_buckets p days version dry_run buckets)

/-- Spec wording: the rule's status is enabled. -/
def spec_enabled (rule : Dict) : Prop :=
  dGet? rule "Status" = some (Val.str "Enabled")

/-- Spec wording: the rule carries an abort-incomplete-multipart-upload
action whose day count (coerced to an integer the way Python `int`
does) is at most the threshold. -/
def spec_abort_within (rule : Dict) (max_days : Int) : Prop :=
  ∃ a k, dGet? rule "AbortIncompleteMultipartUpload" = some (Val.dict a) ∧
    pyInt (dGet a "DaysAfterInitiation") = .ok k ∧ k ≤ max_days

/-- Amended spec wording of global scope: the prefix field is present
and empty, or the filter is absent, `None` or an empty mapping, or the
filter is a mapping whose `And` member is present and empty. -/
def spec_global_scope (rule : Dict) : Prop :=
  dGet? rule "Prefix" = some (Val.str "") ∨
  dGet rule "Filter" = Val.null ∨
  dGet rule "Filter" = Val.dict [] ∨
  ∃ fd, dGet rule "Filter" = Val.dict fd ∧ dHas fd "And" = true ∧
    pyTruthy (dGet fd "And") = false

/-- The claim's original wording of global scope: empty or absent
prefix, or an empty or absent filter, or a filter whose `And`
combinator is empty. -/
def claim_global_scope (rule : Dict) : Prop :=
  (dHas rule "Prefix" = false ∨ dGet? rule "Prefix" = some (Val.str "")) ∨
  (dHas rule "Filter" = false ∨ dGet rule "Filter" = Val.dict []) ∨
  (∃ fd, dGet rule "Filter" = Val.dict fd ∧ dHas fd "And" = true ∧
    pyTruthy (dGet fd "And") = false)

/-- The claim's original wording of a non-empty filter: a filter value
that is present and not empty. -/
def spec_filter_nonempty (rule : Dict) : Prop :=
  dGet rule "Filter" ≠ Val.null ∧
  (∀ fd, dGet rule "Filter" = Val.dict fd →
    fd ≠ [] ∧ (dHas fd "And" = true → pyTruthy (dGet fd "And") = true))

/-- An enabled filter-dialect rule scoped to one key prefix: its top
level has no prefix field, so the claimed reading of "empty or absent
prefix" applies to it. -/
def ruleFilterScoped : Dict :=
  [("Status", .str "Enabled"),
   ("AbortIncompleteMultipartUpload", .dict [("DaysAfterInitiation", .int 1)]),
   ("Filter", .dict [("Prefix", .str "docs/")])]

/-- An enabled legacy-dialect rule with a non-empty prefix and no
filter key. -/
def rulePrefixScoped : Dict :=
  [("Status", .str "Enabled"),
   ("AbortIncompleteMultipartUpload", .dict [("DaysAfterInitiation", .int 1)]),
   ("Prefix", .str "logs/")]

/-- A malformed enabled rule whose abort sub-record is an integer
rather than a mapping; it also carries the deterministic identifier
for a 7-day threshold. -/
def ruleBadAbort : Dict :=
  [("ID", .str "abort-multipart-after-7-days"),
   ("Status", .str "Enabled"),
   ("AbortIncompleteMultipartUpload", .int 5)]

/-- A well-formed enabled global filter-dialect abort rule with a
3-day count. -/
def ruleGood : Dict :=
  [("ID", .str "keep-3-days"),
   ("Status", .str "Enabled"),
   ("Filter", .dict []),
   ("AbortIncompleteMultipartUpload", .dict [("DaysAfterInitiation", .int 3)])]

/-- A stale tool-generated rule: it bears the deterministic identifier
for a 7-day threshold but still carries a 10-day count, so its content
differs from the rule the tool would write now. -/
def ruleOld7 : Dict :=
  [("ID", .str "abort-multipart-after-7-days"),
   ("Status", .str "Enabled"),
   ("Filter", .dict []),
   ("AbortIncompleteMultipartUpload", .dict [("DaysAfterInitiation", .int 10)])]

/-- Deduplication as the spec words it: keep the first occurrence of
every name, preserving first-occurrence order. -/
def dedupKeepFirst : List String → List String
  | [] => []
  | x :: xs => x :: dedupKeepFirst (xs.filter (fun y => !(y == x)))
termination_by l => l.length
decreasing_by
  simp only [List.length_cons]
  exact Nat.lt_succ_of_le (xs.length_filter_le _)

/-- A provider on which every bucket exists and none has a lifecycle
configuration. -/
def providerFresh : Provider :=
  Provider.mk (fun _ => .ok ())
    (fun _ => .clientError (some "NoSuchLifecycleConfiguration"))
    (fun _ _ => .ok ())

/-! ### Helper lemmas -/

theorem pyEq_str_iff {v : Val} {s : String} : pyEq v (.str s) = true ↔ v = .str s := by
  cases v <;> simp [pyEq]

theorem pyEq_str_refl (s : String) : pyEq (.str s) (.str s) = true := by
  simp [pyEq]

theorem pyEq_dGet_str_iff {d : Dict} {k s : String} :
    pyEq (dGet d k) (.str s) = true ↔ dGet? d k = some (.str s) := by
  unfold dGet
  cases h : dGet? d k <;> simp [pyEq_str_iff]

theorem abort_days_within_true_iff {a : Dict} {N : Int} :
    abort_days_within a N = .ok true ↔
      ∃ k, pyInt (dGet a "DaysAfterInitiation") = .ok k ∧ k ≤ N := by
  unfold abort_days_within
  cases hd : dGet a "DaysAfterInitiation"
  case null => simp [pyInt]
  case str s => cases hti : (pyStrip s).toInt? <;> simp [pyInt, hti, not_lt]
  all_goals simp [pyInt, not_lt]

theorem global_scope_check_iff {rule : Dict} :
    global_scope_check rule = true ↔ spec_global_scope rule := by
  unfold global_scope_check spec_global_scope
  cases hp : dGet? rule "Prefix" <;> cases hf : dGet rule "Filter" <;>
    simp [pyEq_str_iff, List.isEmpty_iff]

theorem detect_true_iff (rule : Dict) (N : Int) :
    is_global_abort_rule rule N = .ok true ↔
      spec_enabled rule ∧ spec_abort_within rule N ∧ spec_global_scope rule := by
  unfold is_global_abort_rule spec_enabled spec_abort_within
  by_cases hs : dGet? rule "Status" = some (Val.str "Enabled")
  · have hps : pyEq (dGet rule "Status") (Val.str "Enabled") = true :=
      pyEq_dGet_str_iff.mpr hs
    rw [hps]
    cases ha : dGet? rule "AbortIncompleteMultipartUpload" with
    | none => simp [hs]
    | some v =>
      cases v with
      | null => simp [hs, ha]
      | bool b => simp [hs, ha]
      | int n => simp [hs, ha]
      | str s => simp [hs, ha]
      | list l => simp [hs, ha]
      | dict a =>
        cases hd : abort_days_within a N with
        | error e =>
          have hne : ¬ ∃ k, pyInt (dGet a "DaysAfterInitiation") = .ok k ∧ k ≤ N := by
            rw [← abort_days_within_true_iff, hd]; simp
          simp [hd, hs, hne]
        | ok b =>
          cases b
          · have hne : ¬ ∃ k, pyInt (dGet a "DaysAfterInitiation") = .ok k ∧ k ≤ N := by
              rw [← abort_days_within_true_iff, hd]; simp
            simp [hd, hs, hne]
          · have hex : ∃ k, pyInt (dGet a "DaysAfterInitiation") = .ok k ∧ k ≤ N :=
              abort_days_within_true_iff.mp hd
            simp [hd, hs, hex, global_scope_check_iff]
  · have hps : pyEq (dGet rule "Status") (Val.str "Enabled") = false := by
      rw [← Bool.not_eq_true, pyEq_dGet_str_iff]; exact hs
    rw [hps]
    simp [hs]

theorem scan_detect_all_false {l : List Dict} {d : Int}
    (h : ∀ r ∈ l, is_global_abort_rule r d = .ok false) :
    scan_detect l d = .ok false := by
  induction l with
  | nil => rfl
  | cons r rs ih =>
    have hr := h r (List.mem_cons_self r rs)
    unfold scan_detect
    rw [hr]
    exact ih (fun x hx => h x (List.mem_cons_of_mem r hx))

theorem scan_detect_false_all {l : List Dict} {d : Int}
    (h : scan_detect l d = .ok false) :
    ∀ r ∈ l, is_global_abort_rule r d = .ok false := by
  induction l with
  | nil => simp
  | cons r rs ih =>
    unfold scan_detect at h
    cases hg : is_global_abort_rule r d with
    | error e => rw [hg] at h; simp at h
    | ok b =>
      cases b
      · rw [hg] at h
        intro x hx
        rcases List.mem_cons.mp hx with hx' | hx'
        · rw [hx']; exact hg
        · exact ih h x hx'
      · rw [hg] at h; simp at h

theorem scan_detect_true {l : List Dict} {d : Int}
    (hall : ∀ r ∈ l, ∃ b, is_global_abort_rule r d = .ok b)
    (hex : ∃ r ∈ l, is_global_abort_rule r d = .ok true) :
    scan_detect l d = .ok true := by
  induction l with
  | nil => simp at hex
  | cons r rs ih =>
    obtain ⟨b, hb⟩ := hall r (List.mem_cons_self r rs)
    unfold scan_detect
    rw [hb]
    cases b
    · apply ih (fun x hx => hall x (List.mem_cons_of_mem r hx))
      rcases hex with ⟨x, hx, hxt⟩
      rcases List.mem_cons.mp hx with hx' | hx'
      · rw [hx'] at hxt; rw [hxt] at hb; simp at hb
      · exact ⟨x, hx', hxt⟩
    · rfl

theorem new_rule_id (v : String) (d : Int) :
    dGet (new_rule v d) "ID" = .str (rule_id d) := by
  unfold new_rule
  split <;> rfl

theorem new_rule_detected (v : String) (d : Int) :
    is_global_abort_rule (new_rule v d) d = .ok true := by
  unfold new_rule
  split <;>
    simp [is_global_abort_rule, abort_days_within, global_scope_check,
      dGet, dGet?, dHas, pyEq, pyInt, List.find?, lt_irrefl]

theorem upsert_valid_unfold {rules : List Dict} {days : Int} {v : String}
    (hv : v ∈ valid_versions) :
    upsert_rule_with_version rules days v =
      (match scan_detect rules days with
       | .error e => .error e
       | .ok true => .ok (rules, false)
       | .ok false =>
         match rules.findIdx? (fun r => pyEq (dGet r "ID") (.str (rule_id days))) with
         | some i =>
           if pyEq (.dict (rules.getD i []))
               (.dict (new_rule (final_version rules v) days)) then .ok (rules, false)
           else .ok (rules.set i (new_rule (final_version rules v) days), true)
         | none => .ok (rules ++ [new_rule (final_version rules v) days], true)) := by
  unfold upsert_rule_with_version
  simp [hv]

theorem mem_of_mem_dedupKeepFirst {y : String} :
    ∀ {l : List String}, y ∈ dedupKeepFirst l → y ∈ l := by
  intro l
  induction l using dedupKeepFirst.induct with
  | case1 => simp [dedupKeepFirst]
  | case2 x xs ih =>
    intro hy
    rw [dedupKeepFirst] at hy
    rcases List.mem_cons.mp hy with rfl | hy'
    · exact List.mem_cons_self _ _
    · exact List.mem_cons_of_mem _ (List.mem_of_mem_filter (ih hy'))

theorem nodup_dedupKeepFirst : ∀ (l : List String), (dedupKeepFirst l).Nodup := by
  intro l
  induction l using dedupKeepFirst.induct with
  | case1 => simp [dedupKeepFirst]
  | case2 x xs ih =>
    rw [dedupKeepFirst]
    refine List.nodup_cons.mpr ⟨fun hx => ?_, ih⟩
    have := List.of_mem_filter (mem_of_mem_dedupKeepFirst hx)
    simp at this

theorem foldl_fromKeys (l : List String) : ∀ acc : List String,
    l.foldl (fun acc x => if acc.contains x then acc else acc ++ [x]) acc =
      acc ++ dedupKeepFirst (l.filter (fun y => !(acc.contains y))) := by
  induction l with
  | nil => intro acc; simp [dedupKeepFirst]
  | cons x xs ih =>
    intro acc
    by_cases hx : acc.contains x
    · have hx' : x ∈ acc := by simpa using hx
      rw [List.foldl_cons]
      simp only [hx, if_true]
      rw [ih acc, List.filter_cons]
      simp [hx']
    · have hx' : x ∉ acc := by simpa using hx
      rw [List.foldl_cons]
      simp only [hx, if_false, Bool.false_eq_true]
      rw [ih (acc ++ [x]), List.filter_cons]
      have hcx : (!acc.contains x) = true := by simp [hx']
      rw [if_pos hcx]
      rw [dedupKeepFirst, List.filter_filter, List.append_assoc,
        List.singleton_append]
      congr 2
      congr 1
      apply List.filter_congr
      intro y hy
      by_cases hya : y ∈ acc <;> by_cases hyx : y = x <;>
        simp [List.contains, List.elem_eq_mem, hya, hyx]

theorem pyDictFromKeys_eq_dedup (l : List String) :
    pyDictFromKeys l = dedupKeepFirst l := by
  unfold pyDictFromKeys
  rw [foldl_fromKeys l []]
  simp

theorem scan_detect_ok_of_all {l : List Dict} {d : Int}
    (hall : ∀ r ∈ l, ∃ b, is_global_abort_rule r d = .ok b) :
    ∃ b, scan_detect l d = .ok b := by
  induction l with
  | nil => exact ⟨false, rfl⟩
  | cons r rs ih =>
    obtain ⟨b, hb⟩ := hall r (List.mem_cons_self r rs)
    unfold scan_detect
    rw [hb]
    cases b
    · exact ih (fun x hx => hall x (List.mem_cons_of_mem r hx))
    · exact ⟨true, rfl⟩

theorem set_of_get? {α : Type} :
    ∀ (l : List α) (i : Nat) (a : α), l.get? i = some a → l.set i a = l := by
  intro l
  induction l with
  | nil => intro i a h; simp at h
  | cons x xs ih =>
    intro i a h
    cases i with
    | zero => simp at h; rw [h]; rfl
    | succ j =>
      simp only [List.get?_eq_getElem?, List.getElem?_cons_succ] at h
      simp only [List.set_cons_succ]
      rw [ih j a (by simpa using h)]

theorem pairwise_ids_countP_le_one {l : List Dict} {t : String}
    (hp : List.Pairwise (fun a b => pyEq (dGet a "ID") (dGet b "ID") = false) l) :
    l.countP (fun r => pyEq (dGet r "ID") (.str t)) ≤ 1 := by
  induction l with
  | nil => simp
  | cons r rs ih =>
    obtain ⟨hr, hrs⟩ := List.pairwise_cons.mp hp
    by_cases hpr : pyEq (dGet r "ID") (.str t) = true
    · rw [List.countP_cons]
      simp only [hpr, if_true]
      have h0 : rs.countP (fun r => pyEq (dGet r "ID") (.str t)) = 0 := by
        rw [List.countP_eq_zero]
        intro x hx hxt
        have hxid : dGet x "ID" = .str t := pyEq_str_iff.mp hxt
        have hrid : dGet r "ID" = .str t := pyEq_str_iff.mp hpr
        have := hr x hx
        rw [hxid, hrid, pyEq_str_refl] at this
        simp at this
      omega
    · rw [List.countP_cons]
      simp only [hpr, if_false]
      exact ih hrs

/-! ### Claim theorems -/

/-- C1, counterexample: the enabled 1-day rule `ruleFilterScoped` is
scoped by a filter and has no top-level prefix field, so it satisfies
the claim's wording of applying globally ("empty or absent prefix"),
yet the detector returns `False` on it: the claimed equivalence fails
on the code. -/
theorem claim1_cex :
    spec_enabled ruleFilterScoped ∧ spec_abort_within ruleFilterScoped 7 ∧
    claim_global_scope ruleFilterScoped ∧
    is_global_abort_rule ruleFilterScoped 7 = .ok false := by
  refine ⟨rfl, ⟨[("DaysAfterInitiation", Val.int 1)], 1, rfl, rfl, by norm_num⟩,
    Or.inl (Or.inl rfl), ?_⟩
  simp [is_global_abort_rule, ruleFilterScoped, dGet, dGet?, dHas,
    abort_days_within, global_scope_check, pyEq, pyInt, pyTruthy, List.find?]

/-- C1, amended: the detector returns true iff the rule's status is
enabled, it carries an abort-incomplete-multipart-upload action whose
day count is at most the threshold, and it applies globally in the
code's sense: the prefix field is present and empty, or the filter is
absent, null or an empty mapping, or the filter is a mapping whose And
member is present and empty; a rule missing a required field never
yields true. -/
theorem claim1_detector_iff (rule : Dict) (N : Int) :
    is_global_abort_rule rule N = .ok true ↔
      spec_enabled rule ∧ spec_abort_within rule N ∧ spec_global_scope rule :=
  detect_true_iff rule N

/-- C2, counterexample: `rulePrefixScoped` carries the non-empty prefix
`logs/` (and no filter key), yet the detector returns `True` for it at
threshold 7, contradicting the claim that a non-empty prefix always
yields `False`. -/
theorem claim2_cex :
    dGet? rulePrefixScoped "Prefix" = some (Val.str "logs/") ∧
    dGet? rulePrefixScoped "Filter" = none ∧
    is_global_abort_rule rulePrefixScoped 7 = .ok true := by
  refine ⟨rfl, rfl, ?_⟩
  simp [is_global_abort_rule, rulePrefixScoped, dGet, dGet?, dHas,
    abort_days_within, global_scope_check, pyEq, pyInt, pyTruthy, List.find?]

/-- C2, amended: a rule whose prefix field is not the empty string and
whose filter is present and non-empty is never reported as a global
abort rule, for every day threshold; a non-empty prefix alone does not
prevent detection. -/
theorem claim2_nonempty_filter (rule : Dict) (N : Int)
    (hpfx : ¬ dGet? rule "Prefix" = some (Val.str ""))
    (hf : spec_filter_nonempty rule) :
    is_global_abort_rule rule N ≠ .ok true := by
  intro h
  rcases (detect_true_iff rule N).mp h with ⟨-, -, hscope⟩
  rcases hscope with hp | hnull | hemp | ⟨fd, hfd, hAnd, hfalsy⟩
  · exact hpfx hp
  · exact hf.1 hnull
  · exact (hf.2 [] hemp).1 rfl
  · have ht := (hf.2 fd hfd).2 hAnd
    rw [ht] at hfalsy
    exact Bool.noConfusion hfalsy

/-- C2, witness: the amended theorem applies to the filter-scoped rule
`ruleFilterScoped`. -/
theorem claim2_witness :
    is_global_abort_rule ruleFilterScoped 7 ≠ .ok true := by
  apply claim2_nonempty_filter
  · intro h
    exact Option.noConfusion h
  · constructor
    · intro h
      exact Val.noConfusion h
    · intro fd hfd
      have h2 : Val.dict [("Prefix", Val.str "docs/")] = Val.dict fd := hfd
      injection h2 with h3
      subst h3
      exact ⟨fun h => List.noConfusion h, fun hAnd => Bool.noConfusion hAnd⟩

/-- C4: merging into an empty rule list with a 7-day threshold and
auto version selection appends exactly one new enabled filter-dialect
global abort rule carrying the deterministic identifier and a 7-day
count, and reports a change. -/
theorem claim4_empty_rules :
    upsert_rule_with_version [] 7 "auto" = .ok ([new_rule "v2" 7], true) ∧
    new_rule "v2" 7 =
      [("ID", Val.str "abort-multipart-after-7-days"),
       ("Status", Val.str "Enabled"),
       ("Filter", Val.dict []),
       ("AbortIncompleteMultipartUpload",
        Val.dict [("DaysAfterInitiation", Val.int 7)])] :=
  ⟨rfl, rfl⟩

/-- C10: the deprecated two-argument entry point raises `TypeError` on
every input, returning no merge result. -/
theorem claim10_upsert_rule_raises (rules : List Dict) (days : Int) :
    upsert_rule rules days =
      .error (.typeError
        "upsert_rule without lifecycle_version is removed; call upsert_rule_with_version instead") :=
  rfl

/-- C3, counterexample: `ruleGood` satisfies the detector at threshold
7 and belongs to the list, yet the merge does not return the list with
`changed = False`: it raises, because the detector raises on the
malformed record scanned first. -/
theorem claim3_cex :
    ruleGood ∈ [ruleBadAbort, ruleGood] ∧
    is_global_abort_rule ruleGood 7 = .ok true ∧
    upsert_rule_with_version [ruleBadAbort, ruleGood] 7 "auto" =
      .error (.attributeError "object has no attribute get") ∧
    upsert_rule_with_version [ruleBadAbort, ruleGood] 7 "auto" ≠
      .ok ([ruleBadAbort, ruleGood], false) := by
  have herr : upsert_rule_with_version [ruleBadAbort, ruleGood] 7 "auto" =
      .error (.attributeError "object has no attribute get") := by
    simp [upsert_rule_with_version, valid_versions, scan_detect, is_global_abort_rule,
      ruleBadAbort, dGet, dGet?, dHas, pyEq, pyInt, abort_days_within]
  refine ⟨by simp, ?_, herr, ?_⟩
  · simp [is_global_abort_rule, ruleGood, dGet, dGet?, dHas, abort_days_within,
      global_scope_check, pyEq, pyInt, pyTruthy]
  · intro h
    rw [herr] at h
    exact Except.noConfusion h

/-- C3, amended: with a valid version argument, (a) when the detector
evaluates without exception on every rule and some rule satisfies it,
the merge returns the untouched list with `changed = False`; (b)
whenever the merge returns a result, applying it again to the returned
list reports no change. -/
theorem claim3_idempotent (rules : List Dict) (days : Int) (v : String)
    (hv : v ∈ valid_versions) :
    ((∀ r ∈ rules, ∃ b, is_global_abort_rule r days = .ok b) →
      (∃ r ∈ rules, is_global_abort_rule r days = .ok true) →
      upsert_rule_with_version rules days v = .ok (rules, false)) ∧
    (∀ rules2 changed,
      upsert_rule_with_version rules days v = .ok (rules2, changed) →
      upsert_rule_with_version rules2 days v = .ok (rules2, false)) := by
  constructor
  · intro hall hex
    rw [upsert_valid_unfold hv, scan_detect_true hall hex]
  · intro rules2 changed h
    rw [upsert_valid_unfold hv] at h
    cases hscan : scan_detect rules days with
    | error e => rw [hscan] at h; exact absurd h (by simp)
    | ok b =>
      cases b
      · simp only [hscan] at h
        have hall := scan_detect_false_all hscan
        cases hidx : rules.findIdx?
            (fun r => pyEq (dGet r "ID") (.str (rule_id days))) with
        | some i =>
          simp only [hidx] at h
          by_cases hpe : pyEq (.dict (rules.getD i []))
              (.dict (new_rule (final_version rules v) days)) = true
          · rw [if_pos hpe] at h
            have hh : rules = rules2 ∧ false = changed := by simpa using h
            obtain ⟨rfl, rfl⟩ := hh
            rw [upsert_valid_unfold hv]
            simp only [hscan, hidx]
            rw [if_pos hpe]
          · rw [if_neg hpe] at h
            have hh : rules.set i (new_rule (final_version rules v) days) = rules2 ∧
                true = changed := by simpa using h
            obtain ⟨rfl, rfl⟩ := hh
            have hi : i < rules.length :=
              (List.findIdx?_eq_some_iff_findIdx_eq.mp hidx).1
            rw [upsert_valid_unfold hv]
            have hscan2 : scan_detect
                (rules.set i (new_rule (final_version rules v) days)) days = .ok true := by
              apply scan_detect_true
              · intro r hr
                rcases List.mem_or_eq_of_mem_set hr with hr' | rfl
                · exact ⟨false, hall r hr'⟩
                · exact ⟨true, new_rule_detected _ _⟩
              · exact ⟨new_rule (final_version rules v) days,
                  List.mem_set rules i hi _, new_rule_detected _ _⟩
            rw [hscan2]
        | none =>
          simp only [hidx] at h
          have hh : rules ++ [new_rule (final_version rules v) days] = rules2 ∧
              true = changed := by simpa using h
          obtain ⟨rfl, rfl⟩ := hh
          rw [upsert_valid_unfold hv]
          have hscan2 : scan_detect
              (rules ++ [new_rule (final_version rules v) days]) days = .ok true := by
            apply scan_detect_true
            · intro r hr
              rcases List.mem_append.mp hr with hr' | hr'
              · exact ⟨false, hall r hr'⟩
              · rcases List.mem_singleton.mp hr' with rfl
                exact ⟨true, new_rule_detected _ _⟩
            · exact ⟨new_rule (final_version rules v) days,
                List.mem_append_right _ (List.mem_singleton_self _),
                new_rule_detected _ _⟩
          rw [hscan2]
      · simp only [hscan] at h
        have hh : rules = rules2 ∧ false = changed := by simpa using h
        obtain ⟨rfl, rfl⟩ := hh
        rw [upsert_valid_unfold hv, hscan]

/-- C3, witness: the amended theorem's first part applies to the
singleton list holding the compliant rule `ruleGood` at threshold 3. -/
theorem claim3_witness :
    upsert_rule_with_version [ruleGood] 3 "auto" = .ok ([ruleGood], false) := by
  have hdet : is_global_abort_rule ruleGood 3 = .ok true := by
    simp [is_global_abort_rule, ruleGood, dGet, dGet?, dHas, abort_days_within,
      global_scope_check, pyEq, pyInt, pyTruthy]
  apply (claim3_idempotent [ruleGood] 3 "auto" (by simp [valid_versions])).1
  · intro r hr
    rcases List.mem_singleton.mp hr with rfl
    exact ⟨true, hdet⟩
  · exact ⟨ruleGood, List.mem_singleton_self _, hdet⟩

/-- C5, counterexample: the malformed record `ruleBadAbort` bears the
deterministic identifier for threshold 7, differs from the tool's new
rule, and no rule of the list satisfies the detector — yet the merge
raises instead of replacing it in place. -/
theorem claim5_cex :
    (∀ r ∈ [ruleBadAbort], is_global_abort_rule r 7 ≠ .ok true) ∧
    pyEq (dGet ruleBadAbort "ID") (.str (rule_id 7)) = true ∧
    pyEq (.dict ruleBadAbort)
      (.dict (new_rule (final_version [ruleBadAbort] "auto") 7)) = false ∧
    upsert_rule_with_version [ruleBadAbort] 7 "auto" =
      .error (.attributeError "object has no attribute get") := by
  have hrid : rule_id 7 = "abort-multipart-after-7-days" := rfl
  have herr : is_global_abort_rule ruleBadAbort 7 =
      .error (.attributeError "object has no attribute get") := by
    simp [is_global_abort_rule, ruleBadAbort, dGet, dGet?, dHas, pyEq]
  refine ⟨?_, ?_, ?_, ?_⟩
  · intro r hr h
    rcases List.mem_singleton.mp hr with rfl
    rw [herr] at h
    exact Except.noConfusion h
  · simp [ruleBadAbort, dGet, dGet?, pyEq, hrid]
  · simp [pyEq, pyEqEntries, pyEqList, ruleBadAbort, new_rule, final_version,
      detect_version, dGet, dGet?, dHas, hrid]
  · simp [upsert_rule_with_version, valid_versions, scan_detect, herr]

/-- C5, amended: with a valid version, when the detector returns
`False` on every rule and the first rule bearing the deterministic
identifier sits at index `i`, the merge replaces exactly that position
with the tool's new rule and reports a change when the contents
differ, and reports no change when they are already equal. -/
theorem claim5_replace_in_place (rules : List Dict) (days : Int) (v : String) (i : Nat)
    (hv : v ∈ valid_versions)
    (hall : ∀ r ∈ rules, is_global_abort_rule r days = .ok false)
    (hidx : rules.findIdx? (fun r => pyEq (dGet r "ID") (.str (rule_id days))) = some i) :
    (pyEq (.dict (rules.getD i []))
        (.dict (new_rule (final_version rules v) days)) = false →
      upsert_rule_with_version rules days v =
        .ok (rules.set i (new_rule (final_version rules v) days), true)) ∧
    (pyEq (.dict (rules.getD i []))
        (.dict (new_rule (final_version rules v) days)) = true →
      upsert_rule_with_version rules days v = .ok (rules, false)) := by
  have hscan := scan_detect_all_false hall
  constructor
  · intro hne
    rw [upsert_valid_unfold hv]
    simp only [hscan, hidx]
    rw [if_neg (by simpa using hne)]
  · intro he
    rw [upsert_valid_unfold hv]
    simp only [hscan, hidx]
    rw [if_pos he]

/-- C5, witness: a stale 10-day tool rule under the 7-day identifier is
replaced in place at index 0 by the fresh 7-day rule. -/
theorem claim5_witness :
    upsert_rule_with_version [ruleOld7] 7 "auto" =
      .ok ([ruleOld7].set 0 (new_rule (final_version [ruleOld7] "auto") 7), true) := by
  have hrid : rule_id 7 = "abort-multipart-after-7-days" := rfl
  apply (claim5_replace_in_place [ruleOld7] 7 "auto" 0 (by simp [valid_versions]) ?_ ?_).1 ?_
  · intro r hr
    rcases List.mem_singleton.mp hr with rfl
    simp [is_global_abort_rule, ruleOld7, dGet, dGet?, dHas, abort_days_within,
      global_scope_check, pyEq, pyInt, pyTruthy]
  · simp [List.findIdx?_cons, ruleOld7, dGet, dGet?, pyEq, hrid]
  · simp [pyEq, pyEqEntries, pyEqList, ruleOld7, new_rule, final_version,
      detect_version, dGet, dGet?, dHas, hrid]

/-- C7: bucket-name resolution strips each inline entry and file line,
ignores blank lines and lines starting with a hash, combines the two
sources, and removes duplicates keeping the first occurrence in order;
in particular the inline list a, b, a with a file holding b and c
resolves to a, b, c. -/
theorem claim7_bucket_resolution :
    load_bucket_list (some ["a", "b", "a"]) (some ["b", "c"]) = ["a", "b", "c"] ∧
    ∀ argBuckets fileLines,
      load_bucket_list argBuckets fileLines =
        dedupKeepFirst (inline_names argBuckets ++ file_names fileLines) ∧
      (load_bucket_list argBuckets fileLines).Nodup := by
  refine ⟨rfl, fun argBuckets fileLines => ⟨pyDictFromKeys_eq_dedup _, ?_⟩⟩
  rw [load_bucket_list, pyDictFromKeys_eq_dedup]
  exact nodup_dedupKeepFirst _

/-- C8, counterexample: the merge raises `AttributeError` on a rule
list holding an enabled record whose abort sub-record is not a
mapping, refuting the claim that it raises no exception on every
input. -/
theorem claim8_cex :
    upsert_rule_with_version [ruleBadAbort] 7 "auto" =
      .error (.attributeError "object has no attribute get") := by
  simp [upsert_rule_with_version, valid_versions, scan_detect, is_global_abort_rule,
    ruleBadAbort, dGet, dGet?, dHas, pyEq, pyInt, abort_days_within]

/-- C8, amended: with a valid version, the merge raises no exception
provided the detector raises none on any rule; records with merely
missing fields are tolerated, but an abort sub-record that is not a
mapping, or a day value that is not a number, raises. -/
theorem claim8_no_exception (rules : List Dict) (days : Int) (v : String)
    (hv : v ∈ valid_versions)
    (hall : ∀ r ∈ rules, ∃ b, is_global_abort_rule r days = .ok b) :
    ∃ out, upsert_rule_with_version rules days v = .ok out := by
  rw [upsert_valid_unfold hv]
  obtain ⟨b, hb⟩ := scan_detect_ok_of_all hall
  rw [hb]
  cases b
  · cases hidx : rules.findIdx?
        (fun r => pyEq (dGet r "ID") (.str (rule_id days))) with
    | none => simp only [hidx]; exact ⟨_, rfl⟩
    | some i =>
      simp only [hidx]
      by_cases hpe : pyEq (.dict (rules.getD i []))
          (.dict (new_rule (final_version rules v) days)) = true
      · rw [if_pos hpe]; exact ⟨_, rfl⟩
      · rw [if_neg hpe]; exact ⟨_, rfl⟩
  · exact ⟨_, rfl⟩

/-- C8, witness: the amended theorem applies to the well-formed list
holding `ruleGood`. -/
theorem claim8_witness :
    ∃ out, upsert_rule_with_version [ruleGood] 7 "auto" = .ok out := by
  apply claim8_no_exception
  · simp [valid_versions]
  · intro r hr
    rcases List.mem_singleton.mp hr with rfl
    exact ⟨true, by
      simp [is_global_abort_rule, ruleGood, dGet, dGet?, dHas, abort_days_within,
        global_scope_check, pyEq, pyInt, pyTruthy]⟩

/-- C6: whenever the merge returns a list, if the input rules had
pairwise distinct identifiers then the returned list still has
pairwise distinct identifiers and carries at most one rule bearing the
deterministic identifier for the threshold. -/
theorem claim6_no_duplicates (rules : List Dict) (days : Int) (v : String)
    (rules2 : List Dict) (changed : Bool)
    (hp : List.Pairwise (fun a b => pyEq (dGet a "ID") (dGet b "ID") = false) rules)
    (h : upsert_rule_with_version rules days v = .ok (rules2, changed)) :
    List.Pairwise (fun a b => pyEq (dGet a "ID") (dGet b "ID") = false) rules2 ∧
    rules2.countP (fun r => pyEq (dGet r "ID") (.str (rule_id days))) ≤ 1 := by
  by_cases hv : v ∈ valid_versions
  · rw [upsert_valid_unfold hv] at h
    cases hscan : scan_detect rules days with
    | error e => simp [hscan] at h
    | ok b =>
      cases b
      · simp only [hscan] at h
        cases hidx : rules.findIdx?
            (fun r => pyEq (dGet r "ID") (.str (rule_id days))) with
        | none =>
          simp only [hidx] at h
          have hh : rules ++ [new_rule (final_version rules v) days] = rules2 ∧
              true = changed := by simpa using h
          obtain ⟨rfl, rfl⟩ := hh
          have hnone := List.findIdx?_eq_none_iff.mp hidx
          constructor
          · rw [List.pairwise_append]
            refine ⟨hp, List.pairwise_singleton _ _, ?_⟩
            intro x hx y hy
            rcases List.mem_singleton.mp hy with rfl
            rw [new_rule_id]
            simpa using hnone x hx
          · rw [List.countP_append]
            have h0 : rules.countP
                (fun r => pyEq (dGet r "ID") (.str (rule_id days))) = 0 :=
              List.countP_eq_zero.mpr (fun a ha => by simp [hnone a ha])
            have h1 : List.countP (fun r => pyEq (dGet r "ID") (.str (rule_id days)))
                [new_rule (final_version rules v) days] = 1 := by
              rw [List.countP_cons, List.countP_nil]
              simp [new_rule_id, pyEq_str_refl]
            omega
        | some i =>
          simp only [hidx] at h
          obtain ⟨hi, hpi, -⟩ := List.findIdx?_eq_some_iff_getElem.mp hidx
          by_cases hpe : pyEq (.dict (rules.getD i []))
              (.dict (new_rule (final_version rules v) days)) = true
          · rw [if_pos hpe] at h
            have hh : rules = rules2 ∧ false = changed := by simpa using h
            obtain ⟨rfl, rfl⟩ := hh
            exact ⟨hp, pairwise_ids_countP_le_one hp⟩
          · rw [if_neg hpe] at h
            have hh : rules.set i (new_rule (final_version rules v) days) = rules2 ∧
                true = changed := by simpa using h
            obtain ⟨rfl, rfl⟩ := hh
            have hmapset : (rules.set i (new_rule (final_version rules v) days)).map
                (fun r => dGet r "ID") = rules.map (fun r => dGet r "ID") := by
              rw [List.map_set]
              apply set_of_get?
              rw [List.get?_eq_getElem?, List.getElem?_map, List.getElem?_eq_getElem hi]
              simp only [Option.map_some']
              rw [new_rule_id, pyEq_str_iff.mp hpi]
            constructor
            · have hP1 : List.Pairwise (fun a b : Val => pyEq a b = false)
                  (rules.map (fun r => dGet r "ID")) := List.pairwise_map.mpr hp
              rw [← hmapset] at hP1
              exact List.pairwise_map.mp hP1
            · have e1 : List.countP
                  ((fun val => pyEq val (.str (rule_id days))) ∘ (fun r => dGet r "ID"))
                  (rules.set i (new_rule (final_version rules v) days)) ≤ 1 := by
                rw [← List.countP_map, hmapset, List.countP_map]
                exact pairwise_ids_countP_le_one hp
              exact e1
      · simp only [hscan] at h
        have hh : rules = rules2 ∧ false = changed := by simpa using h
        obtain ⟨rfl, rfl⟩ := hh
        exact ⟨hp, pairwise_ids_countP_le_one hp⟩
  · unfold upsert_rule_with_version at h
    rw [if_pos hv] at h
    exact absurd h (by simp)

/-- C6, witness: merging into the empty list yields a singleton list
with pairwise distinct identifiers and one tool rule. -/
theorem claim6_witness :
    List.Pairwise (fun a b => pyEq (dGet a "ID") (dGet b "ID") = false)
      [new_rule "v2" 7] ∧
    List.countP (fun r => pyEq (dGet r "ID") (.str (rule_id 7)))
      [new_rule "v2" 7] ≤ 1 :=
  claim6_no_duplicates [] 7 "auto" [new_rule "v2" 7] true List.Pairwise.nil rfl

/-- C9: with zero resolved buckets the run exits with an error message
and a result independent of the provider, so no provider interaction
can influence it; with at least one resolved bucket the run always
completes with a summary, whatever the provider answers for each
bucket. -/
theorem claim9_exit_behavior (argBuckets : Option (List String))
    (fileLines : Option (List String)) (days : Int) (applyFlag : Bool)
    (version : String) (p q : Provider) :
    (load_bucket_list argBuckets fileLines = [] →
      main_run argBuckets fileLines days applyFlag version p =
        .exitError "no target buckets were specified" ∧
      main_run argBuckets fileLines days applyFlag version p =
        main_run argBuckets fileLines days applyFlag version q) ∧
    (load_bucket_list argBuckets fileLines ≠ [] →
      ∃ s, main_run argBuckets fileLines days applyFlag version p = .completed s) := by
  constructor
  · intro h
    constructor <;> simp [main_run, h]
  · intro h
    exact ⟨run_buckets p days version (!applyFlag) (load_bucket_list argBuckets fileLines),
      by simp [main_run, h]⟩

/-- C9, witness: with no bucket sources the run exits with the error,
and with one inline bucket it completes against a provider with no
lifecycle configurations. -/
theorem claim9_witness :
    main_run none none 7 false "auto" providerFresh =
      .exitError "no target buckets were specified" ∧
    ∃ s, main_run (some ["bucket-a"]) none 7 false "auto" providerFresh =
      .completed s :=
  ⟨((claim9_exit_behavior none none 7 false "auto" providerFresh providerFresh).1 rfl).1,
   (claim9_exit_behavior (some ["bucket-a"]) none 7 false "auto"
      providerFresh providerFresh).2 (fun h => List.noConfusion h)⟩

end S3Abort
